import Mathlib

/-!
Verification development for the Tech Toolkit Hub repository.

Each definition is a shallow embedding of a function from the source
tree (file and symbol given in its doc comment).  JavaScript numbers are
modelled as rationals (ℚ) for rating values and as integers (ℤ) for
epoch-millisecond timestamps; JavaScript arrays are Lean lists; the
remote document store is explicit state threaded through the operations;
a thrown exception is an Except.error carrying the thrown message, and a
caught-and-swallowed exception is modelled by the catching function
returning its input state unchanged.
-/

namespace TechToolkitHub

/-- JavaScript Math.round on a rational: round half toward positive
infinity, i.e. ⌊x + 1/2⌋. -/
def jsRound (x : ℚ) : ℤ := ⌊x + 1/2⌋

/-- The rounding used by the code for aggregates:
Math.round(x * 10) / 10, i.e. rounding to one decimal place. -/
def round1 (x : ℚ) : ℚ := (jsRound (x * 10) : ℚ) / 10

/-- A document of the ratings collection (src/src/hooks/useRatings.ts,
FirebaseRating; timestamps omitted: no embedded operation reads them). -/
structure FirebaseRating where
  id : String
  toolId : String
  userId : String
  rating : ℚ
deriving DecidableEq, Repr

/-- The aggregate slice of a document of the tools collection: the
fields written back by updateToolAverageRating. -/
structure ToolDoc where
  id : String
  averageRating : ℚ
  ratingCount : ℕ
deriving DecidableEq, Repr

/-- The remote store as the rating operations see it: the tools
collection (aggregate slice) and the ratings collection. -/
structure Store where
  tools : List ToolDoc
  ratings : List FirebaseRating
deriving DecidableEq, Repr

/-- The ratings of the given tool, as the where-clause query
(collection ratings, toolId == given) returns them; also the subscribed
snapshot held in the useRatings hook's data state. -/
def hookData (st : Store) (toolId : String) : List FirebaseRating :=
  st.ratings.filter (fun r => r.toolId == toolId)

/-- The rating values of the given tool
(src/src/hooks/useRatings.ts line 196: snapshot.docs.map of rating). -/
def ratingsFor (st : Store) (toolId : String) : List ℚ :=
  (hookData st toolId).map (fun r => r.rating)

/-- The aggregate computation of updateToolAverageRating
(src/src/hooks/useRatings.ts lines 196-200 and 205): average guarded by
an emptiness check, rounded to one decimal, plus the count. -/
def recomputeAgg (rs : List ℚ) : ℚ × ℕ :=
  let averageRating : ℚ := if rs.length > 0 then rs.sum / (rs.length : ℚ) else 0
  (round1 averageRating, rs.length)

/-- updateToolAverageRating (src/src/hooks/useRatings.ts lines 185-216):
re-reads all ratings of the tool and writes the recomputed aggregate onto
the tool document.  The whole body is wrapped in try/catch whose catch
only logs; recomputeFails = true models any failure inside the body
(getDocs or updateDoc), in which case no write happens and no error
escapes. -/
def updateToolAverageRating (recomputeFails : Bool) (toolId : String)
    (st : Store) : Store :=
  if recomputeFails then st
  else
    let agg := recomputeAgg (ratingsFor st toolId)
    { st with
      tools := st.tools.map (fun td =>
        if td.id == toolId then { td with averageRating := agg.1, ratingCount := agg.2 } else td) }

/-- addRating (src/src/hooks/useRatings.ts lines 98-130): range
validation, duplicate check against the subscribed snapshot of this
tool's ratings, insertion, then aggregate recompute.  newId is the
document id the store assigns to the inserted document. -/
def addRating (recomputeFails : Bool) (st : Store) (toolId : String)
    (newId : String) (userId : String) (rating : ℚ) : Except String Store :=
  if rating < 1/2 ∨ rating > 5 then
    Except.error "평점은 0.5점에서 5.0점 사이여야 합니다."
  else if ((hookData st toolId).find? (fun r => r.userId == userId)).isSome then
    Except.error "이미 평점을 남기셨습니다. 수정을 원하시면 평점 수정을 이용해주세요."
  else
    let st1 : Store := { st with ratings := st.ratings ++ [⟨newId, toolId, userId, rating⟩] }
    Except.ok (updateToolAverageRating recomputeFails toolId st1)

/-- updateRating (src/src/hooks/useRatings.ts lines 137-159): range
validation, then updateDoc setting the rating field on the document with
the given id, then aggregate recompute. -/
def updateRating (recomputeFails : Bool) (st : Store) (toolId : String)
    (ratingId : String) (rating : ℚ) : Except String Store :=
  if rating < 1/2 ∨ rating > 5 then
    Except.error "평점은 0.5점에서 5.0점 사이여야 합니다."
  else
    let st1 : Store :=
      { st with
        ratings := st.ratings.map (fun r => if r.id == ratingId then { r with rating := rating } else r) }
    Except.ok (updateToolAverageRating recomputeFails toolId st1)

/-- deleteRating (src/src/hooks/useRatings.ts lines 165-179): deleteDoc
on the rating document, then aggregate recompute. -/
def deleteRating (recomputeFails : Bool) (st : Store) (toolId : String)
    (ratingId : String) : Except String Store :=
  let st1 : Store := { st with ratings := st.ratings.filter (fun r => r.id != ratingId) }
  Except.ok (updateToolAverageRating recomputeFails toolId st1)

/-- The in-memory averageRating memo of the useRatings hook
(src/src/hooks/useRatings.ts lines 219-223): 0 for an empty list, else
the mean of the subscribed ratings rounded to one decimal. -/
def averageRatingMemo (data : List FirebaseRating) : ℚ :=
  if data.length = 0 then 0
  else round1 ((data.map (fun r => r.rating)).sum / (data.length : ℚ))

/-- A store holding one tool document t1 with a fresh zero aggregate and
no ratings. -/
def store0 : Store := { tools := [⟨"t1", 0, 0⟩], ratings := [] }

/-- The sequential no-concurrency scenario of the spec: ratings 3.0,
4.0, 5.0 submitted one after the other by three users to tool t1. -/
def seq3Scenario : Except String Store := do
  let st1 ← addRating false store0 "t1" "r1" "u1" 3
  let st2 ← addRating false st1 "t1" "r2" "u2" 4
  addRating false st2 "t1" "r3" "u3" 5

/-- Intermediate store of the sequential scenario after the first
rating. -/
def seqStore1 : Store := { tools := [⟨"t1", 3, 1⟩], ratings := [⟨"r1", "t1", "u1", 3⟩] }

/-- Intermediate store of the sequential scenario after the second
rating. -/
def seqStore2 : Store :=
  { tools := [⟨"t1", 7/2, 2⟩], ratings := [⟨"r1", "t1", "u1", 3⟩, ⟨"r2", "t1", "u2", 4⟩] }

/-- Final store of the sequential scenario. -/
def seqStore3 : Store :=
  { tools := [⟨"t1", 4, 3⟩],
    ratings := [⟨"r1", "t1", "u1", 3⟩, ⟨"r2", "t1", "u2", 4⟩, ⟨"r3", "t1", "u3", 5⟩] }

lemma seq3_step1 : addRating false store0 "t1" "r1" "u1" 3 = Except.ok seqStore1 := by
  simp [addRating, store0, hookData, ratingsFor, updateToolAverageRating, recomputeAgg,
    round1, jsRound, seqStore1]
  norm_num

lemma seq3_step2 : addRating false seqStore1 "t1" "r2" "u2" 4 = Except.ok seqStore2 := by
  simp [addRating, seqStore1, hookData, ratingsFor, updateToolAverageRating, recomputeAgg,
    round1, jsRound, seqStore2]
  norm_num

lemma seq3_step3 : addRating false seqStore2 "t1" "r3" "u3" 5 = Except.ok seqStore3 := by
  simp [addRating, seqStore2, hookData, ratingsFor, updateToolAverageRating, recomputeAgg,
    round1, jsRound, seqStore3]
  norm_num

lemma seq3Scenario_eq : seq3Scenario = Except.ok seqStore3 := by
  unfold seq3Scenario
  rw [seq3_step1]
  simp only [Bind.bind, Except.bind]
  rw [seq3_step2]
  exact seq3_step3

/-- The guarded average of the source equals the unguarded rational
formula (division by zero is zero in ℚ, matching the guard's 0). -/
lemma recomputeAgg_eq (rs : List ℚ) :
    recomputeAgg rs = (round1 (rs.sum / (rs.length : ℚ)), rs.length) := by
  rcases rs with _ | ⟨a, tl⟩
  · simp [recomputeAgg]
  · simp [recomputeAgg]

lemma updateAgg_ratings (fails : Bool) (t : String) (st : Store) :
    (updateToolAverageRating fails t st).ratings = st.ratings := by
  unfold updateToolAverageRating
  split <;> rfl

lemma updateAgg_ratingsFor (t t2 : String) (st : Store) :
    ratingsFor (updateToolAverageRating false t st) t2 = ratingsFor st t2 := by
  simp [ratingsFor, hookData, updateAgg_ratings]

lemma updateAgg_tools_spec (t : String) (st : Store) :
    ∀ td ∈ (updateToolAverageRating false t st).tools, td.id = t →
      td.averageRating = round1 ((ratingsFor st t).sum / ((ratingsFor st t).length : ℚ)) ∧
      td.ratingCount = (ratingsFor st t).length := by
  intro td htd hid
  simp only [updateToolAverageRating, Bool.false_eq_true, if_false, List.mem_map] at htd
  obtain ⟨td0, htd0, heq⟩ := htd
  by_cases h0 : td0.id = t
  · have hb : (td0.id == t) = true := by simpa [beq_iff_eq] using h0
    rw [hb] at heq
    simp only [if_true] at heq
    rw [← heq]
    simp [recomputeAgg_eq]
  · have hb : (td0.id == t) = false := by simpa [beq_iff_eq] using h0
    rw [hb] at heq
    simp only [Bool.false_eq_true, if_false] at heq
    rw [← heq] at hid
    exact absurd hid h0

/-- C1: after every rating create, update, or delete that completes
(with the recompute step succeeding), the tool document carrying the
given tool id holds averageRating equal to the arithmetic mean of all of
that tool's rating records rounded to one decimal place and ratingCount
equal to the number of those records; and the sequential scenario of
ratings 3.0, 4.0, 5.0 ends with averageRating 4 and ratingCount 3. -/
theorem rating_aggregate_recompute_correct :
    (∀ (st st' : Store) (t nid u : String) (r : ℚ),
        addRating false st t nid u r = Except.ok st' →
        ∀ td ∈ st'.tools, td.id = t →
          td.averageRating = round1 ((ratingsFor st' t).sum / ((ratingsFor st' t).length : ℚ)) ∧
          td.ratingCount = (ratingsFor st' t).length) ∧
    (∀ (st st' : Store) (t rid : String) (r : ℚ),
        updateRating false st t rid r = Except.ok st' →
        ∀ td ∈ st'.tools, td.id = t →
          td.averageRating = round1 ((ratingsFor st' t).sum / ((ratingsFor st' t).length : ℚ)) ∧
          td.ratingCount = (ratingsFor st' t).length) ∧
    (∀ (st st' : Store) (t rid : String),
        deleteRating false st t rid = Except.ok st' →
        ∀ td ∈ st'.tools, td.id = t →
          td.averageRating = round1 ((ratingsFor st' t).sum / ((ratingsFor st' t).length : ℚ)) ∧
          td.ratingCount = (ratingsFor st' t).length) ∧
    seq3Scenario = Except.ok seqStore3 ∧ seqStore3.tools = [⟨"t1", 4, 3⟩] := by
  refine ⟨?_, ?_, ?_, seq3Scenario_eq, rfl⟩
  · intro st st' t nid u r h td htd hid
    unfold addRating at h
    split at h
    · exact absurd h (by simp)
    · split at h
      · exact absurd h (by simp)
      · simp only [Except.ok.injEq] at h
        subst h
        rw [updateAgg_ratingsFor]
        exact updateAgg_tools_spec t _ td htd hid
  · intro st st' t rid r h td htd hid
    unfold updateRating at h
    split at h
    · exact absurd h (by simp)
    · simp only [Except.ok.injEq] at h
      subst h
      rw [updateAgg_ratingsFor]
      exact updateAgg_tools_spec t _ td htd hid
  · intro st st' t rid h td htd hid
    unfold deleteRating at h
    simp only [Except.ok.injEq] at h
    subst h
    rw [updateAgg_ratingsFor]
    exact updateAgg_tools_spec t _ td htd hid

theorem rating_aggregate_recompute_correct_witness :
    (⟨"t1", 3, 1⟩ : ToolDoc).averageRating =
        round1 ((ratingsFor seqStore1 "t1").sum / ((ratingsFor seqStore1 "t1").length : ℚ)) ∧
    (⟨"t1", 3, 1⟩ : ToolDoc).ratingCount = (ratingsFor seqStore1 "t1").length :=
  rating_aggregate_recompute_correct.1 store0 seqStore1 "t1" "r1" "u1" 3 seq3_step1
    ⟨"t1", 3, 1⟩ (by simp [seqStore1]) rfl

/-- C2 counterexample: the rating value 0.7 lies in [0.5, 5.0], is not
a multiple of 0.5 (twice it is not an integer), yet the add path accepts
it and writes it — the claimed rejection of non-half-step values does
not happen. -/
theorem rating_halfstep_not_enforced :
    (1 : ℚ)/2 ≤ 7/10 ∧ (7/10 : ℚ) ≤ 5 ∧
    2 * (7/10 : ℚ) ≠ ((⌊2 * (7/10 : ℚ)⌋ : ℤ) : ℚ) ∧
    addRating false store0 "t1" "r1" "u1" (7/10) =
      Except.ok { tools := [⟨"t1", 7/10, 1⟩], ratings := [⟨"r1", "t1", "u1", 7/10⟩] } := by
  refine ⟨by norm_num, by norm_num, by norm_num, ?_⟩
  simp [addRating, store0, hookData, ratingsFor, updateToolAverageRating, recomputeAgg,
    round1, jsRound]
  norm_num

/-- C2 amended: the add and update paths validate only the range: a
value outside [0.5, 5.0] (such as 0 or 5.5) is rejected with the
validation error and no write occurs, and every value inside [0.5, 5.0]
(such as 0.5 and 5.0) passes the validation, whether or not it is a
multiple of 0.5. -/
theorem rating_range_validation :
    ∀ (st : Store) (t nid u rid : String) (r : ℚ),
      ((r < 1/2 ∨ r > 5) →
        addRating false st t nid u r = Except.error "평점은 0.5점에서 5.0점 사이여야 합니다." ∧
        updateRating false st t rid r = Except.error "평점은 0.5점에서 5.0점 사이여야 합니다.") ∧
      (1/2 ≤ r → r ≤ 5 →
        (updateRating false st t rid r).isOk = true ∧
        ((∀ x ∈ hookData st t, x.userId ≠ u) → (addRating false st t nid u r).isOk = true)) := by
  intro st t nid u rid r
  constructor
  · intro hr
    constructor
    · unfold addRating
      rw [if_pos hr]
    · unfold updateRating
      rw [if_pos hr]
  · intro h1 h2
    have hc : ¬(r < 1/2 ∨ r > 5) := not_or.mpr ⟨not_lt.mpr h1, not_lt.mpr h2⟩
    constructor
    · unfold updateRating
      rw [if_neg hc]
      rfl
    · intro hnd
      have hfind : (hookData st t).find? (fun x => x.userId == u) = none :=
        List.find?_eq_none.mpr (fun x hx => by simpa [beq_iff_eq] using hnd x hx)
      unfold addRating
      rw [if_neg hc, hfind]
      rfl

theorem rating_range_validation_witness :
    (addRating false store0 "t1" "r1" "u1" 0 =
        Except.error "평점은 0.5점에서 5.0점 사이여야 합니다." ∧
      updateRating false store0 "t1" "rid1" 0 =
        Except.error "평점은 0.5점에서 5.0점 사이여야 합니다.") ∧
    (addRating false store0 "t1" "r1" "u1" (11/2) =
        Except.error "평점은 0.5점에서 5.0점 사이여야 합니다." ∧
      updateRating false store0 "t1" "rid1" (11/2) =
        Except.error "평점은 0.5점에서 5.0점 사이여야 합니다.") ∧
    (updateRating false store0 "t1" "rid1" (1/2)).isOk = true ∧
    (addRating false store0 "t1" "r1" "u1" (1/2)).isOk = true ∧
    (updateRating false store0 "t1" "rid1" 5).isOk = true ∧
    (addRating false store0 "t1" "r1" "u1" 5).isOk = true := by
  have hempty : ∀ x ∈ hookData store0 "t1", x.userId ≠ "u1" := by
    simp [hookData, store0]
  refine ⟨(rating_range_validation store0 "t1" "r1" "u1" "rid1" 0).1 (by norm_num),
    (rating_range_validation store0 "t1" "r1" "u1" "rid1" (11/2)).1 (by norm_num),
    ((rating_range_validation store0 "t1" "r1" "u1" "rid1" (1/2)).2 (by norm_num) (by norm_num)).1,
    ((rating_range_validation store0 "t1" "r1" "u1" "rid1" (1/2)).2 (by norm_num) (by norm_num)).2 hempty,
    ((rating_range_validation store0 "t1" "r1" "u1" "rid1" 5).2 (by norm_num) (by norm_num)).1,
    ((rating_range_validation store0 "t1" "r1" "u1" "rid1" 5).2 (by norm_num) (by norm_num)).2 hempty⟩

/-- C7: when the aggregate recompute step fails (recomputeFails = true)
after the underlying rating write succeeded, the operation still returns
success, the rating write of the first step is kept, and the tool
documents (the cached aggregate) are left untouched — the error is
swallowed, never propagated. -/
theorem aggregate_failure_swallowed :
    ∀ (st : Store) (t nid u rid : String) (r : ℚ),
      (1/2 ≤ r → r ≤ 5 → (∀ x ∈ hookData st t, x.userId ≠ u) →
        addRating true st t nid u r =
          Except.ok { st with ratings := st.ratings ++ [⟨nid, t, u, r⟩] }) ∧
      (1/2 ≤ r → r ≤ 5 →
        updateRating true st t rid r =
          Except.ok { st with ratings :=
            (st.ratings.map (fun x => if x.id == rid then { x with rating := r } else x)) }) ∧
      deleteRating true st t rid =
        Except.ok { st with ratings := st.ratings.filter (fun x => x.id != rid) } := by
  intro st t nid u rid r
  refine ⟨?_, ?_, rfl⟩
  · intro h1 h2 hnd
    have hc : ¬(r < 1/2 ∨ r > 5) := not_or.mpr ⟨not_lt.mpr h1, not_lt.mpr h2⟩
    have hfind : (hookData st t).find? (fun x => x.userId == u) = none :=
      List.find?_eq_none.mpr (fun x hx => by simpa [beq_iff_eq] using hnd x hx)
    unfold addRating
    rw [if_neg hc, hfind]
    rfl
  · intro h1 h2
    have hc : ¬(r < 1/2 ∨ r > 5) := not_or.mpr ⟨not_lt.mpr h1, not_lt.mpr h2⟩
    unfold updateRating
    rw [if_neg hc]
    rfl

theorem aggregate_failure_swallowed_witness :
    addRating true store0 "t1" "r1" "u1" 3 =
      Except.ok { tools := [⟨"t1", 0, 0⟩], ratings := [⟨"r1", "t1", "u1", 3⟩] } :=
  (aggregate_failure_swallowed store0 "t1" "r1" "u1" "rid1" 3).1
    (by norm_num) (by norm_num) (by simp [hookData, store0])

/-- C8: a rating submission through the add path by a user who already
has a rating record for the tool is rejected before any write, while a
first submission (no existing record with that userId) passes the
duplicate check, and the update path accepts the value regardless. -/
theorem duplicate_rating_rejected :
    ∀ (st : Store) (t nid u rid : String) (r : ℚ), 1/2 ≤ r → r ≤ 5 →
      ((∃ x ∈ hookData st t, x.userId = u) →
        addRating false st t nid u r =
          Except.error "이미 평점을 남기셨습니다. 수정을 원하시면 평점 수정을 이용해주세요.") ∧
      ((∀ x ∈ hookData st t, x.userId ≠ u) → (addRating false st t nid u r).isOk = true) ∧
      (updateRating false st t rid r).isOk = true := by
  intro st t nid u rid r h1 h2
  have hc : ¬(r < 1/2 ∨ r > 5) := not_or.mpr ⟨not_lt.mpr h1, not_lt.mpr h2⟩
  refine ⟨?_, ?_, ?_⟩
  · intro hdup
    have hsome : ((hookData st t).find? (fun x => x.userId == u)).isSome = true := by
      rw [List.find?_isSome]
      obtain ⟨x, hx, hxu⟩ := hdup
      exact ⟨x, hx, by simpa [beq_iff_eq] using hxu⟩
    unfold addRating
    rw [if_neg hc, hsome]
    rfl
  · intro hnd
    have hfind : (hookData st t).find? (fun x => x.userId == u) = none :=
      List.find?_eq_none.mpr (fun x hx => by simpa [beq_iff_eq] using hnd x hx)
    unfold addRating
    rw [if_neg hc, hfind]
    rfl
  · unfold updateRating
    rw [if_neg hc]
    rfl

theorem duplicate_rating_rejected_witness :
    addRating false seqStore1 "t1" "r9" "u1" 4 =
      Except.error "이미 평점을 남기셨습니다. 수정을 원하시면 평점 수정을 이용해주세요." ∧
    (addRating false seqStore1 "t1" "r9" "u9" 4).isOk = true :=
  ⟨((duplicate_rating_rejected seqStore1 "t1" "r9" "u1" "rid1" 4 (by norm_num) (by norm_num)).1
      ⟨⟨"r1", "t1", "u1", 3⟩, by simp [hookData, seqStore1], rfl⟩),
    ((duplicate_rating_rejected seqStore1 "t1" "r9" "u9" "rid1" 4 (by norm_num) (by norm_num)).2.1
      (by simp [hookData, seqStore1]))⟩

/-- C10: when a tool has zero rating records the recompute writes
averageRating 0 and ratingCount 0 (the division is behind an emptiness
guard), and the hook's in-memory average for an empty rating list is
likewise 0. -/
theorem empty_ratings_zero_aggregate :
    (∀ (st : Store) (t : String),
      ratingsFor st t = [] →
      ∀ td ∈ (updateToolAverageRating false t st).tools, td.id = t →
        td.averageRating = 0 ∧ td.ratingCount = 0) ∧
    averageRatingMemo [] = 0 := by
  constructor
  · intro st t hempty td htd hid
    have h := updateAgg_tools_spec t st td htd hid
    rw [hempty] at h
    refine ⟨?_, by simpa using h.2⟩
    rw [h.1]
    have h0 : ⌊(2⁻¹ : ℚ)⌋ = 0 := by
      rw [Int.floor_eq_zero_iff]
      norm_num [Set.mem_Ico]
    norm_num [round1, jsRound, h0]
  · simp [averageRatingMemo]

theorem empty_ratings_zero_aggregate_witness :
    ratingsFor store0 "t1" = [] ∧
    (⟨"t1", 0, 0⟩ : ToolDoc).averageRating = 0 ∧ (⟨"t1", 0, 0⟩ : ToolDoc).ratingCount = 0 :=
  ⟨rfl, empty_ratings_zero_aggregate.1 store0 "t1" rfl ⟨"t1", 0, 0⟩
    (by norm_num [updateToolAverageRating, store0, ratingsFor, hookData, recomputeAgg, round1,
      jsRound])
    rfl⟩

/-- A document of the comments collection (src/unnamed/part_003,
FirebaseComment; only the fields the delete logic reads, parentId null
modelled as none). -/
structure FirebaseComment where
  id : String
  toolId : String
  userId : String
  content : String
  parentId : Option String
deriving DecidableEq, Repr

/-- One deleteDoc call on the comments collection: the document with the
given id is gone. -/
def deleteById (l : List FirebaseComment) (i : String) : List FirebaseComment :=
  l.filter (fun c => c.id != i)

/-- deleteComment (src/unnamed/part_003 lines 202-232): look the comment
up in the subscribed snapshot (error if absent, no store round-trip),
delete every comment whose parentId is the target's id, then delete the
target itself.  data doubles as the store contents, consistent with the
snapshot in the sequential setting. -/
def deleteComment (data : List FirebaseComment) (commentId : String) :
    Except String (List FirebaseComment) :=
  if ((data.find? (fun c => c.id == commentId)).isSome) then
    let replies := data.filter (fun c => c.parentId == some commentId)
    let afterReplies := replies.foldl (fun acc r => deleteById acc r.id) data
    Except.ok (deleteById afterReplies commentId)
  else Except.error "삭제할 댓글을 찾을 수 없습니다."

lemma mem_deleteById (l : List FirebaseComment) (i : String) (x : FirebaseComment) :
    x ∈ deleteById l i ↔ x ∈ l ∧ x.id ≠ i := by
  simp [deleteById, List.mem_filter, bne_iff_ne]

lemma mem_foldl_deleteById (rs : List FirebaseComment) :
    ∀ (data : List FirebaseComment) (x : FirebaseComment),
      x ∈ rs.foldl (fun acc r => deleteById acc r.id) data ↔
        x ∈ data ∧ ∀ r ∈ rs, x.id ≠ r.id := by
  induction rs with
  | nil => intro data x; simp
  | cons r rs ih =>
    intro data x
    rw [List.foldl_cons, ih]
    rw [mem_deleteById]
    constructor
    · rintro ⟨⟨hx, hne⟩, hall⟩
      refine ⟨hx, ?_⟩
      intro q hq
      rcases List.mem_cons.mp hq with h | h
      · subst h; exact hne
      · exact hall q h
    · rintro ⟨hx, hall⟩
      exact ⟨⟨hx, hall r (List.mem_cons_self r rs)⟩, fun q hq => hall q (List.mem_cons_of_mem r hq)⟩

/-- A sample comment forest: one top-level comment with two replies,
plus one unrelated top-level comment. -/
def cTop : FirebaseComment := ⟨"c1", "t1", "u1", "hello", none⟩

def cReply1 : FirebaseComment := ⟨"c2", "t1", "u2", "re one", some "c1"⟩

def cReply2 : FirebaseComment := ⟨"c3", "t1", "u3", "re two", some "c1"⟩

def cOther : FirebaseComment := ⟨"c4", "t1", "u1", "bye", none⟩

def sampleComments : List FirebaseComment := [cTop, cReply1, cReply2, cOther]

/-- C6: deleting a comment removes exactly it and its direct replies
(given store-unique document ids); on the sample forest, deleting the
top-level comment with two replies removes all three records and
deleting a reply removes exactly that one record. -/
theorem comment_delete_cascade :
    (∀ (data : List FirebaseComment) (cid : String) (c : FirebaseComment),
        c ∈ data → c.id = cid → (data.map (fun x => x.id)).Nodup →
        ∃ l, deleteComment data cid = Except.ok l ∧
          ∀ x, x ∈ l ↔ x ∈ data ∧ x.id ≠ cid ∧ x.parentId ≠ some cid) ∧
    deleteComment sampleComments "c1" = Except.ok [cOther] ∧
    deleteComment sampleComments "c2" = Except.ok [cTop, cReply2, cOther] := by
  refine ⟨?_, by rfl, by rfl⟩
  intro data cid c hc hcid hnodup
  have hinj : ∀ a ∈ data, ∀ b ∈ data, a.id = b.id → a = b := by
    intro a ha b hb hab
    exact List.inj_on_of_nodup_map hnodup ha hb hab
  have hfind : ((data.find? (fun x => x.id == cid)).isSome) = true :=
    List.find?_isSome.mpr ⟨c, hc, by simp [hcid]⟩
  unfold deleteComment
  rw [if_pos hfind]
  refine ⟨_, rfl, ?_⟩
  intro x
  rw [mem_deleteById, mem_foldl_deleteById]
  constructor
  · rintro ⟨⟨hx, hall⟩, hne⟩
    refine ⟨hx, hne, ?_⟩
    intro hpar
    exact hall x (List.mem_filter.mpr ⟨hx, by simp [hpar]⟩) rfl
  · rintro ⟨hx, hne, hpar⟩
    refine ⟨⟨hx, ?_⟩, hne⟩
    intro r hr hid
    have hrdata : r ∈ data := (List.mem_filter.mp hr).1
    have hrpar : r.parentId = some cid := by
      have := (List.mem_filter.mp hr).2
      simpa using this
    have : x = r := hinj x hx r hrdata hid
    rw [this] at hpar
    exact hpar hrpar

theorem comment_delete_cascade_witness : (deleteComment sampleComments "c1").isOk = true := by
  obtain ⟨l, hl, -⟩ := comment_delete_cascade.1 sampleComments "c1" cTop
    (by simp [sampleComments]) rfl (by decide)
  rw [hl]
  rfl

/-- A document of the bookmarks collection (src/src/hooks/useBookmarks.ts,
FirebaseBookmark; createdAt omitted: the toggle logic never reads it). -/
structure FirebaseBookmark where
  id : String
  toolId : String
  userId : String
deriving DecidableEq, Repr

/-- checkBookmarkStatus (src/src/hooks/useBookmarks.ts lines 296-336):
a limit(1) query on (userId, toolId); yields the isBookmarked flag and
the found document's id. -/
def checkBookmarkStatus (store : List FirebaseBookmark) (userId toolId : String) :
    Bool × Option String :=
  match store.find? (fun b => b.userId == userId && b.toolId == toolId) with
  | some b => (true, some b.id)
  | none => (false, none)

/-- toggleBookmark (src/src/hooks/useBookmarks.ts lines 386-423): with
the hook state freshly synced by checkBookmarkStatus, delete the tracked
document if bookmarked, else insert a new document (newId is the id the
store assigns). -/
def toggleBookmark (store : List FirebaseBookmark) (userId toolId newId : String) :
    List FirebaseBookmark :=
  match (checkBookmarkStatus store userId toolId).2 with
  | some bid => store.filter (fun b => b.id != bid)
  | none => store ++ [⟨newId, toolId, userId⟩]

/-- Membership of the (userId, toolId) pair in the bookmark store. -/
def bookmarkMembership (store : List FirebaseBookmark) (userId toolId : String) : Bool :=
  store.any (fun b => b.userId == userId && b.toolId == toolId)

/-- C9: from any store holding at most one bookmark document for the
(user, tool) pair — the invariant the duplicate check maintains — two
sequential toggles by that user on that tool restore the pair's
membership to its original value. -/
theorem bookmark_double_toggle :
    ∀ (store : List FirebaseBookmark) (u t id1 id2 : String),
      (store.filter (fun x => x.userId == u && x.toolId == t)).length ≤ 1 →
      bookmarkMembership (toggleBookmark (toggleBookmark store u t id1) u t id2) u t =
        bookmarkMembership store u t := by
  intro store u t id1 id2 hcount
  rcases hfind : store.find? (fun x => x.userId == u && x.toolId == t) with _ | bk
  · -- not bookmarked: the toggles insert then delete
    have hnone : ∀ x ∈ store, ¬((x.userId == u && x.toolId == t) = true) :=
      List.find?_eq_none.mp hfind
    have hm : bookmarkMembership store u t = false := by
      rw [bookmarkMembership]
      rcases ha : store.any (fun x => x.userId == u && x.toolId == t) with _ | _
      · rfl
      · obtain ⟨x, hx, hpx⟩ := List.any_eq_true.mp ha
        exact absurd hpx (hnone x hx)
    have ht1 : toggleBookmark store u t id1 = store ++ [(⟨id1, t, u⟩ : FirebaseBookmark)] := by
      simp only [toggleBookmark, checkBookmarkStatus, hfind]
    have hfind2 : (store ++ [(⟨id1, t, u⟩ : FirebaseBookmark)]).find?
        (fun x => x.userId == u && x.toolId == t) = some (⟨id1, t, u⟩ : FirebaseBookmark) := by
      rw [List.find?_append, hfind]
      simp
    have ht2 : toggleBookmark (store ++ [(⟨id1, t, u⟩ : FirebaseBookmark)]) u t id2 =
        (store ++ [(⟨id1, t, u⟩ : FirebaseBookmark)]).filter (fun x => x.id != id1) := by
      simp only [toggleBookmark, checkBookmarkStatus, hfind2]
    rw [ht1, ht2, hm, bookmarkMembership]
    rcases ha : ((store ++ [(⟨id1, t, u⟩ : FirebaseBookmark)]).filter (fun x => x.id != id1)).any
        (fun x => x.userId == u && x.toolId == t) with _ | _
    · exact ha
    · obtain ⟨x, hx, hpx⟩ := List.any_eq_true.mp ha
      obtain ⟨hxm, hxid⟩ := List.mem_filter.mp hx
      rcases List.mem_append.mp hxm with hxs | hxd
      · exact absurd hpx (hnone x hxs)
      · have hxe : x = (⟨id1, t, u⟩ : FirebaseBookmark) := by simpa using hxd
        rw [hxe] at hxid
        simp at hxid
  · -- bookmarked: the toggles delete then insert
    have hpb := List.find?_some hfind
    have hmb := List.mem_of_find?_eq_some hfind
    have hmem : bookmarkMembership store u t = true :=
      List.any_eq_true.mpr ⟨bk, hmb, hpb⟩
    have hbf : bk ∈ store.filter (fun x => x.userId == u && x.toolId == t) :=
      List.mem_filter.mpr ⟨hmb, hpb⟩
    have hfil : store.filter (fun x => x.userId == u && x.toolId == t) = [bk] := by
      rcases hl : store.filter (fun x => x.userId == u && x.toolId == t) with _ | ⟨y, ys⟩
      · rw [hl] at hbf
        simp at hbf
      · rw [hl] at hcount hbf
        have hys : ys = [] := by
          rw [List.length_cons] at hcount
          exact List.length_eq_zero.mp (by omega)
        subst hys
        simp only [List.mem_singleton] at hbf
        rw [hbf]
        exact hl
    have ht1 : toggleBookmark store u t id1 = store.filter (fun x => x.id != bk.id) := by
      simp only [toggleBookmark, checkBookmarkStatus, hfind]
    have hnone2 : (store.filter (fun x => x.id != bk.id)).find?
        (fun x => x.userId == u && x.toolId == t) = none := by
      rw [List.find?_eq_none]
      intro x hx hpx
      obtain ⟨hxs, hxid⟩ := List.mem_filter.mp hx
      have hxf : x ∈ store.filter (fun x => x.userId == u && x.toolId == t) :=
        List.mem_filter.mpr ⟨hxs, hpx⟩
      rw [hfil] at hxf
      have hxe : x = bk := by simpa using hxf
      rw [hxe] at hxid
      simp at hxid
    have ht2 : toggleBookmark (store.filter (fun x => x.id != bk.id)) u t id2 =
        store.filter (fun x => x.id != bk.id) ++ [(⟨id2, t, u⟩ : FirebaseBookmark)] := by
      simp only [toggleBookmark, checkBookmarkStatus, hnone2]
    rw [ht1, ht2, hmem, bookmarkMembership]
    exact List.any_eq_true.mpr ⟨(⟨id2, t, u⟩ : FirebaseBookmark), by simp, by simp⟩

theorem bookmark_double_toggle_witness :
    bookmarkMembership
        (toggleBookmark (toggleBookmark [⟨"b1", "t1", "u1"⟩] "u1" "t1" "n1") "u1" "t1" "n2")
        "u1" "t1" =
      bookmarkMembership [⟨"b1", "t1", "u1"⟩] "u1" "t1" :=
  bookmark_double_toggle [⟨"b1", "t1", "u1"⟩] "u1" "t1" "n1" "n2" (by decide)

/-- Lowercasing as String.prototype.toLowerCase, per character. -/
def strToLower (s : String) : String := ⟨s.data.map Char.toLower⟩

/-- Whether the second character list occurs at the start of the
first. -/
def listStartsWith : List Char → List Char → Bool
  | _, [] => true
  | [], _ :: _ => false
  | c :: cs, d :: ds => c == d && listStartsWith cs ds

/-- Whether the second character list occurs contiguously anywhere in
the first (String.prototype.includes on the underlying characters). -/
def listContainsSeq : List Char → List Char → Bool
  | [], sub => sub.isEmpty
  | s@(_ :: cs), sub => listStartsWith s sub || listContainsSeq cs sub

/-- String.prototype.includes. -/
def jsIncludes (s sub : String) : Bool := listContainsSeq s.data sub.data

/-- The fields of a tool record that the list pipeline reads
(src/unnamed/part_015; FirebaseTool with Date fields as epoch
milliseconds). -/
structure PipelineTool where
  id : String
  name : String
  category : String
  description : String
  plan : String
  averageRating : ℚ
  createdAt : ℤ
  updatedAt : ℤ
deriving DecidableEq, Repr

/-- The filter state driving the pipeline (src/unnamed/part_015,
filters object). -/
structure Filters where
  selectedCategory : String
  searchTerm : String
  freeOnly : Bool
  bookmarkedOnly : Bool
deriving DecidableEq, Repr

/-- The ambient inputs of the bookmark branch: authentication flag,
configuration flag, and the caller's bookmarked tool ids
(src/unnamed/part_015 lines 210-231). -/
structure PipelineCtx where
  isAuthenticated : Bool
  firebaseConfigured : Bool
  bookmarkedToolIds : List String
deriving DecidableEq, Repr

/-- Category filter step (src/unnamed/part_015 lines 189-192). -/
def categoryFilterStep (fs : Filters) (l : List PipelineTool) : List PipelineTool :=
  if fs.selectedCategory != "전체" then
    l.filter (fun tool => tool.category == fs.selectedCategory)
  else l

/-- Search filter step (src/unnamed/part_015 lines 195-201):
case-insensitive substring match on name or description, applied only
for a non-empty (truthy) search term. -/
def searchFilterStep (fs : Filters) (l : List PipelineTool) : List PipelineTool :=
  if fs.searchTerm != "" then
    l.filter (fun tool =>
      jsIncludes (strToLower tool.name) (strToLower fs.searchTerm) ||
      jsIncludes (strToLower tool.description) (strToLower fs.searchTerm))
  else l

/-- Free-only filter step (src/unnamed/part_015 lines 204-207). -/
def freeFilterStep (fs : Filters) (l : List PipelineTool) : List PipelineTool :=
  if fs.freeOnly then l.filter (fun tool => tool.plan == "무료") else l

/-- Bookmark-only filter step (src/unnamed/part_015 lines 210-231):
active only when the flag is set, the caller is authenticated and the
backend is configured; an empty bookmark-id list short-circuits to an
empty result. -/
def bookmarkFilterStep (fs : Filters) (ctx : PipelineCtx) (l : List PipelineTool) :
    List PipelineTool :=
  if fs.bookmarkedOnly && ctx.isAuthenticated && ctx.firebaseConfigured then
    if ctx.bookmarkedToolIds.length == 0 then []
    else l.filter (fun tool => ctx.bookmarkedToolIds.contains tool.id)
  else l

/-- The filtering part of filteredAndSortedTools
(src/unnamed/part_015 lines 186-231): the four steps in source order,
before the sort. -/
def filteredTools (fs : Filters) (ctx : PipelineCtx) (l : List PipelineTool) :
    List PipelineTool :=
  bookmarkFilterStep fs ctx (freeFilterStep fs (searchFilterStep fs (categoryFilterStep fs l)))

lemma mem_categoryFilterStep (fs : Filters) (l : List PipelineTool) (x : PipelineTool) :
    x ∈ categoryFilterStep fs l ↔
      x ∈ l ∧ ((fs.selectedCategory != "전체") = true → (x.category == fs.selectedCategory) = true) := by
  unfold categoryFilterStep
  split
  · rename_i h
    simp [List.mem_filter, h]
  · rename_i h
    simp [Bool.not_eq_true] at h
    simp [h]

lemma mem_searchFilterStep (fs : Filters) (l : List PipelineTool) (x : PipelineTool) :
    x ∈ searchFilterStep fs l ↔
      x ∈ l ∧ ((fs.searchTerm != "") = true →
        (jsIncludes (strToLower x.name) (strToLower fs.searchTerm) ||
         jsIncludes (strToLower x.description) (strToLower fs.searchTerm)) = true) := by
  unfold searchFilterStep
  split
  · rename_i h
    simp [List.mem_filter, h]
  · rename_i h
    simp [Bool.not_eq_true] at h
    simp [h]

lemma mem_freeFilterStep (fs : Filters) (l : List PipelineTool) (x : PipelineTool) :
    x ∈ freeFilterStep fs l ↔
      x ∈ l ∧ (fs.freeOnly = true → (x.plan == "무료") = true) := by
  unfold freeFilterStep
  split
  · rename_i h
    simp [List.mem_filter, h]
  · rename_i h
    simp [Bool.not_eq_true] at h
    simp [h]

lemma mem_bookmarkFilterStep (fs : Filters) (ctx : PipelineCtx) (l : List PipelineTool)
    (x : PipelineTool) :
    x ∈ bookmarkFilterStep fs ctx l ↔
      x ∈ l ∧ ((fs.bookmarkedOnly && ctx.isAuthenticated && ctx.firebaseConfigured) = true →
        (ctx.bookmarkedToolIds.contains x.id) = true) := by
  unfold bookmarkFilterStep
  split
  · rename_i h
    split
    · rename_i hz
      rcases hi : ctx.bookmarkedToolIds with _ | ⟨a, as⟩
      · simp [h, hi]
      · rw [hi] at hz
        simp at hz
    · rename_i hz
      simp [List.mem_filter, h]
  · rename_i h
    constructor
    · intro hx
      exact ⟨hx, fun hcond => absurd hcond h⟩
    · exact fun hx => hx.1

/-- C3: for every record list and filter state, membership in the
pipeline's pre-sort result is exactly the conjunction of membership in
each of the four filters applied independently to the full list — so
the result set is the intersection of the four independent filter
results, independent of application order; and with the bookmark filter
active and an empty bookmark-id set the result is the empty list, not
an error. -/
theorem filter_pipeline_intersection :
    (∀ (fs : Filters) (ctx : PipelineCtx) (l : List PipelineTool) (x : PipelineTool),
      x ∈ filteredTools fs ctx l ↔
        x ∈ categoryFilterStep fs l ∧ x ∈ searchFilterStep fs l ∧
        x ∈ freeFilterStep fs l ∧ x ∈ bookmarkFilterStep fs ctx l) ∧
    (∀ (fs : Filters) (ctx : PipelineCtx) (l : List PipelineTool),
      fs.bookmarkedOnly = true → ctx.isAuthenticated = true → ctx.firebaseConfigured = true →
      ctx.bookmarkedToolIds = [] → filteredTools fs ctx l = []) := by
  constructor
  · intro fs ctx l x
    unfold filteredTools
    simp only [mem_bookmarkFilterStep, mem_freeFilterStep, mem_searchFilterStep,
      mem_categoryFilterStep]
    tauto
  · intro fs ctx l hb ha hc hi
    unfold filteredTools bookmarkFilterStep
    rw [hb, ha, hc, hi]
    rfl

theorem filter_pipeline_intersection_witness :
    filteredTools ⟨"전체", "", false, true⟩ ⟨true, true, []⟩
      [⟨"t1", "Alpha", "AI", "desc", "무료", 4, 0, 0⟩] = [] :=
  filter_pipeline_intersection.2 ⟨"전체", "", false, true⟩ ⟨true, true, []⟩
    [⟨"t1", "Alpha", "AI", "desc", "무료", 4, 0, 0⟩] rfl rfl rfl rfl

/-- paginatedTools (src/unnamed/part_015 lines 270-274, identical in
src/App.tsx lines 201-205): slice [(page-1)*40, page*40) of the
filtered/sorted list, with ITEMS_PER_PAGE = 40. -/
def paginatedTools (l : List PipelineTool) (currentPage : ℕ) : List PipelineTool :=
  (l.drop ((currentPage - 1) * 40)).take 40

/-- totalPages (src/unnamed/part_015 line 277): Math.ceil(length / 40),
as natural-number ceiling division. -/
def totalPages (l : List PipelineTool) : ℕ := (l.length + 39) / 40

lemma join_take_drop {α : Type} (c : ℕ) :
    ∀ (n : ℕ) (l : List α),
      ((List.range n).map (fun i => (l.drop (i * c)).take c)).flatten = l.take (n * c) := by
  intro n
  induction n with
  | zero => intro l; simp
  | succ m ih =>
    intro l
    rw [List.range_succ, List.map_append, List.flatten_append]
    simp only [List.map_cons, List.map_nil, List.flatten_cons, List.flatten_nil, List.append_nil]
    rw [ih, Nat.succ_mul, List.take_add]

/-- C4: concatenating the pages of a filtered/sorted result, in page
order, reconstructs the list exactly (hence no gaps and no duplicates);
for a nonempty list the last page holds length mod 40 elements, or 40
when the length is a nonzero multiple of 40; and totalPages is the
ceiling of length / 40. -/
theorem pagination_coverage :
    (∀ l : List PipelineTool,
      ((List.range (totalPages l)).map (fun i => paginatedTools l (i + 1))).flatten = l) ∧
    (∀ l : List PipelineTool, 0 < l.length →
      (paginatedTools l (totalPages l)).length =
        if l.length % 40 = 0 then 40 else l.length % 40) ∧
    (∀ l : List PipelineTool, (totalPages l : ℤ) = ⌈(l.length : ℚ) / 40⌉) := by
  refine ⟨?_, ?_, ?_⟩
  · intro l
    have hp : ∀ i : ℕ, paginatedTools l (i + 1) = (l.drop (i * 40)).take 40 := by
      intro i
      simp [paginatedTools]
    simp only [hp]
    rw [join_take_drop]
    apply List.take_of_length_le
    have : l.length ≤ (l.length + 39) / 40 * 40 := by omega
    simpa [totalPages] using this
  · intro l hpos
    rw [paginatedTools, List.length_take, List.length_drop]
    rw [totalPages]
    by_cases h : l.length % 40 = 0
    · rw [if_pos h]
      omega
    · rw [if_neg h]
      omega
  · intro l
    rw [eq_comm, Int.ceil_eq_iff]
    have h1 : 40 * ((l.length + 39) / 40) ≤ l.length + 39 := by omega
    have h2 : l.length ≤ 40 * ((l.length + 39) / 40) := by omega
    have h1q : (40 : ℚ) * ((totalPages l : ℤ) : ℚ) ≤ (l.length : ℚ) + 39 := by
      rw [totalPages]
      exact_mod_cast h1
    have h2q : (l.length : ℚ) ≤ 40 * ((totalPages l : ℤ) : ℚ) := by
      rw [totalPages]
      exact_mod_cast h2
    constructor
    · rw [lt_div_iff₀ (by norm_num : (0:ℚ) < 40)]
      linarith
    · rw [div_le_iff₀ (by norm_num : (0:ℚ) < 40)]
      linarith

theorem pagination_coverage_witness :
    0 < ([⟨"t1", "Alpha", "AI", "d", "무료", 4, 0, 0⟩] : List PipelineTool).length ∧
    (paginatedTools [⟨"t1", "Alpha", "AI", "d", "무료", 4, 0, 0⟩]
        (totalPages [⟨"t1", "Alpha", "AI", "d", "무료", 4, 0, 0⟩])).length =
      if ([⟨"t1", "Alpha", "AI", "d", "무료", 4, 0, 0⟩] : List PipelineTool).length % 40 = 0
      then 40
      else ([⟨"t1", "Alpha", "AI", "d", "무료", 4, 0, 0⟩] : List PipelineTool).length % 40 :=
  ⟨by decide,
    pagination_coverage.2.1 [⟨"t1", "Alpha", "AI", "d", "무료", 4, 0, 0⟩] (by decide)⟩

/-- Comparator: rating descending (b.averageRating - a.averageRating). -/
def cmpRatingDesc (a b : PipelineTool) : ℚ := b.averageRating - a.averageRating

/-- Comparator: rating ascending. -/
def cmpRatingAsc (a b : PipelineTool) : ℚ := a.averageRating - b.averageRating

/-- Comparator: name ascending via the environment's locale-aware
string comparison lc (String.prototype.localeCompare). -/
def cmpNameAsc (lc : String → String → ℤ) (a b : PipelineTool) : ℚ := (lc a.name b.name : ℚ)

/-- Comparator: name descending via locale-aware comparison. -/
def cmpNameDesc (lc : String → String → ℤ) (a b : PipelineTool) : ℚ := (lc b.name a.name : ℚ)

/-- Comparator: createdAt descending (epoch-millisecond difference). -/
def cmpCreatedDesc (a b : PipelineTool) : ℚ := ((b.createdAt - a.createdAt : ℤ) : ℚ)

/-- Comparator: createdAt ascending. -/
def cmpCreatedAsc (a b : PipelineTool) : ℚ := ((a.createdAt - b.createdAt : ℤ) : ℚ)

/-- Comparator: updatedAt descending. -/
def cmpUpdatedDesc (a b : PipelineTool) : ℚ := ((b.updatedAt - a.updatedAt : ℤ) : ℚ)

/-- Comparator: updatedAt ascending. -/
def cmpUpdatedAsc (a b : PipelineTool) : ℚ := ((a.updatedAt - b.updatedAt : ℤ) : ℚ)

/-- The sort comparator of filteredAndSortedTools
(src/unnamed/part_015 lines 234-255): the switch over sortOrder, with
the default branch returning the updatedAt-descending difference.  lc
models the external localeCompare of the runtime. -/
def compareTools (lc : String → String → ℤ) (sortOrder : String) (a b : PipelineTool) : ℚ :=
  if sortOrder == "rating_desc" then b.averageRating - a.averageRating
  else if sortOrder == "rating_asc" then a.averageRating - b.averageRating
  else if sortOrder == "name_asc" then (lc a.name b.name : ℚ)
  else if sortOrder == "name_desc" then (lc b.name a.name : ℚ)
  else if sortOrder == "created_desc" then ((b.createdAt - a.createdAt : ℤ) : ℚ)
  else if sortOrder == "created_asc" then ((a.createdAt - b.createdAt : ℤ) : ℚ)
  else if sortOrder == "updated_desc" then ((b.updatedAt - a.updatedAt : ℤ) : ℚ)
  else if sortOrder == "updated_asc" then ((a.updatedAt - b.updatedAt : ℤ) : ℚ)
  else ((b.updatedAt - a.updatedAt : ℤ) : ℚ)

/-- C5: the pipeline's comparator is selected by sortOrder from the
fixed eight-element set (rating, name with locale-aware comparison,
createdAt, updatedAt — each ascending and descending), and every
sortOrder outside that set yields the updatedAt-descending
comparator. -/
theorem sort_comparator_selection :
    ∀ (lc : String → String → ℤ),
      compareTools lc "rating_desc" = cmpRatingDesc ∧
      compareTools lc "rating_asc" = cmpRatingAsc ∧
      compareTools lc "name_asc" = cmpNameAsc lc ∧
      compareTools lc "name_desc" = cmpNameDesc lc ∧
      compareTools lc "created_desc" = cmpCreatedDesc ∧
      compareTools lc "created_asc" = cmpCreatedAsc ∧
      compareTools lc "updated_desc" = cmpUpdatedDesc ∧
      compareTools lc "updated_asc" = cmpUpdatedAsc ∧
      (∀ s : String,
        s ∉ (["rating_desc", "rating_asc", "name_asc", "name_desc",
              "created_desc", "created_asc", "updated_desc", "updated_asc"] : List String) →
        compareTools lc s = cmpUpdatedDesc) := by
  intro lc
  refine ⟨?_, ?_, ?_, ?_, ?_, ?_, ?_, ?_, ?_⟩
  · funext a b; simp [compareTools, cmpRatingDesc]
  · funext a b; simp [compareTools, cmpRatingAsc]
  · funext a b; simp [compareTools, cmpNameAsc]
  · funext a b; simp [compareTools, cmpNameDesc]
  · funext a b; simp [compareTools, cmpCreatedDesc]
  · funext a b; simp [compareTools, cmpCreatedAsc]
  · funext a b; simp [compareTools, cmpUpdatedDesc]
  · funext a b; simp [compareTools, cmpUpdatedAsc]
  · intro s hs
    simp only [List.mem_cons, List.mem_singleton, not_or] at hs
    obtain ⟨h1, h2, h3, h4, h5, h6, h7, h8, -⟩ := hs
    funext a b
    simp [compareTools, cmpUpdatedDesc, h1, h2, h3, h4, h5, h6, h7, h8]

theorem sort_comparator_selection_witness :
    compareTools (fun _ _ => 0) "garbage_sort" = cmpUpdatedDesc :=
  (sort_comparator_selection (fun _ _ => 0)).2.2.2.2.2.2.2.2 "garbage_sort" (by decide)

end TechToolkitHub
